import Mathlib

/-!
Verification of the resource-resolution engine of a cluster-management CLI
(the `Builder`/`Result` subsystem of `cli-runtime/pkg/resource`).

The Go source is shallowly embedded: pure functions become Lean functions,
the stateful `Result` becomes explicit state passing, Go errors become an
inductive error type whose constructors stand for the distinct error values
and format strings produced by the source.
-/

namespace KubeResource

/-- Errors of the subsystem.  Each constructor models one distinct Go error
value or `fmt.Errorf` format string from the source; the payload carries the
formatted-in data.  `discovery` stands for an arbitrary underlying
transport/discovery failure (any Go error for which `meta.IsNoMatchError`
is false); `noKindMatch` models `meta.NoKindMatchError` (for which
`meta.IsNoMatchError` is true). -/
inductive KError where
  | noKindMatch (group kind : String)
  | discovery (code : Nat)
  | noSuchResourceType (resource : String)
  | singleResourceTypeOnly
  | noNameSpecified
  | missingResource
  | moreThanOneSlash
  | mustHaveSingleResourceAndName
  | mustBeResourceSlashName (arg : String)
  | visitErr (code : Nat)
deriving DecidableEq, Repr

/-- `meta.IsNoMatchError`: true exactly for a `NoKindMatchError`. -/
def KError.isNoMatch : KError → Bool
  | .noKindMatch _ _ => true
  | _ => false

/-- `schema.GroupVersionResource`. -/
structure GroupVersionResource where
  group : String
  version : String
  resource : String
deriving DecidableEq, Repr

/-- `schema.GroupVersionKind`. -/
structure GroupVersionKind where
  group : String
  version : String
  kind : String
deriving DecidableEq, Repr

/-- `schema.GroupKind`. -/
structure GroupKind where
  group : String
  kind : String
deriving DecidableEq, Repr

/-- `schema.GroupResource`. -/
structure GroupResource where
  group : String
  resource : String
deriving DecidableEq, Repr

/-- `GroupVersionKind.Empty()`: all three fields empty. -/
def GroupVersionKind.isEmpty (g : GroupVersionKind) : Bool :=
  g.group == "" && g.version == "" && g.kind == ""

/-- `meta.RESTMapping`: resolved (group, version, kind), canonical plural
resource, and scope (namespaced or cluster). -/
structure RESTMapping where
  gvk : GroupVersionKind
  resource : GroupVersionResource
  scopeNamespaced : Bool
deriving DecidableEq, Repr

/-- Splitting a character list at every occurrence of `c`
(`strings.Split` for a one-character separator, on the underlying runes). -/
def splitChars (c : Char) : List Char → List (List Char)
  | [] => [[]]
  | ch :: rest =>
    let r := splitChars c rest
    if ch = c then [] :: r
    else
      match r with
      | h :: t => (ch :: h) :: t
      | [] => [[ch]]

/-- `strings.Split(s, sep)` for the one-character separators used by the
source (`"/"`, `","`, `"."`). -/
def splitOnChar (c : Char) (s : String) : List String :=
  (splitChars c s.data).map (fun cs => ⟨cs⟩)

/-- `schema.ParseGroupResource`: everything after the first dot is the group,
everything before it the resource; with no dot the whole token is the
resource. -/
def parseGroupResource (arg : String) : GroupResource :=
  match splitOnChar '.' arg with
  | [r] => { group := "", resource := r }
  | r :: rest => { group := String.intercalate "." rest, resource := r }
  | [] => { group := "", resource := arg }

/-- `schema.ParseGroupKind`: same shape as `parseGroupResource` with a kind. -/
def parseGroupKind (arg : String) : GroupKind :=
  match splitOnChar '.' arg with
  | [k] => { group := "", kind := k }
  | k :: rest => { group := String.intercalate "." rest, kind := k }
  | [] => { group := "", kind := arg }

/-- `schema.ParseResourceArg`: a token with at least two dots additionally
parses as a fully-specified `resource.version.group`. -/
def parseResourceArg (arg : String) : Option GroupVersionResource × GroupResource :=
  let gvr : Option GroupVersionResource :=
    match splitOnChar '.' arg with
    | r :: v :: g0 :: grest =>
        some { group := String.intercalate "." (g0 :: grest), version := v, resource := r }
    | _ => none
  (gvr, parseGroupResource arg)

/-- `schema.ParseKindArg`: a token with at least two dots additionally parses
as a fully-specified `kind.version.group`. -/
def parseKindArg (arg : String) : Option GroupVersionKind × GroupKind :=
  let gvk : Option GroupVersionKind :=
    match splitOnChar '.' arg with
    | k :: v :: g0 :: grest =>
        some { group := String.intercalate "." (g0 :: grest), version := v, kind := k }
    | _ => none
  (gvk, parseGroupKind arg)

/-- The REST mapper consumed by the Builder (`b.restMapperFn()`), abstracted
at its interface: `KindFor` (whose error the source discards) and
`RESTMapping` for a group/kind at one requested version. -/
structure RestMapperEnv where
  kindFor : GroupVersionResource → GroupVersionKind
  restMapping : GroupKind → String → Except KError RESTMapping

/-- `Except.isOk` as a Bool. -/
def exceptOk {α : Type} : Except KError α → Bool
  | .ok _ => true
  | .error _ => false

/-- The fully-specified GVK used by `Builder.mappingFor` on its kind path:
the parsed `kind.version.group` if present, else the bare group/kind with an
empty version. -/
def fullySpecifiedGVKof (arg : String) : GroupVersionKind :=
  match (parseKindArg arg).1 with
  | some g => g
  | none => { group := (parseKindArg arg).2.group, version := "", kind := (parseKindArg arg).2.kind }

/-- The resource-path kind lookup of `mappingFor`: `KindFor` on the
fully-specified GVR when the token parses as one, else the empty GVK. -/
def kindForGVRStep (env : RestMapperEnv) (o : Option GroupVersionResource) : GroupVersionKind :=
  match o with
  | some gvr => env.kindFor gvr
  | none => { group := "", version := "", kind := "" }

/-- The fully-specified-GVK attempt of `mappingFor`: when the GVK is
non-empty and its REST mapping succeeds, that mapping is taken; any failure
falls through. -/
def gvkAttempt (env : RestMapperEnv) (g : GroupVersionKind) : Option RESTMapping :=
  if g.isEmpty = false then
    match env.restMapping { group := g.group, kind := g.kind } g.version with
    | .ok m => some m
    | .error _ => none
  else none

/-- The final lookup of `mappingFor` with its error classification: a
no-match failure becomes the user-facing no-such-resource-type error naming
the unresolved type; any other failure is returned unmodified. -/
def finalizeMapping (env : RestMapperEnv) (gk : GroupKind) (resource : String) :
    Except KError RESTMapping :=
  match env.restMapping gk "" with
  | .ok m => .ok m
  | .error e =>
    if e.isNoMatch then .error (.noSuchResourceType resource)
    else .error e

/-- `Builder.mappingFor`: prefer a fully-specified GVR match, then a
group/resource match, then a fully-specified GVK REST mapping, and finally a
bare group/kind REST mapping with error classification. -/
def mappingFor (env : RestMapperEnv) (resourceOrKindArg : String) : Except KError RESTMapping :=
  let pr := parseResourceArg resourceOrKindArg
  let gvk1 := kindForGVRStep env pr.1
  let gvk2 :=
    if gvk1.isEmpty then
      env.kindFor { group := pr.2.group, version := "", resource := pr.2.resource }
    else gvk1
  if gvk2.isEmpty = false then
    env.restMapping { group := gvk2.group, kind := gvk2.kind } gvk2.version
  else
    match gvkAttempt env (fullySpecifiedGVKof resourceOrKindArg) with
    | some m => .ok m
    | none => finalizeMapping env (parseKindArg resourceOrKindArg).2 pr.2.resource

/-- `resourceTuple`: an (abstract-type-token, name) pair. -/
structure ResourceTuple where
  resource : String
  name : String
deriving DecidableEq, Repr

/-- `SplitResourceArgument`: split on commas, keeping the first occurrence of
each distinct piece in order. -/
def SplitResourceArgument (arg : String) : List String :=
  go [] (splitOnChar ',' arg)
where
  go (seen : List String) : List String → List String
    | [] => []
    | s :: rest => if s ∈ seen then go seen rest else s :: go (s :: seen) rest

/-- `splitResourceTypeName`: `.ok none` when the token has no slash,
`.ok (some tuple)` for a well-formed `type/name` token, `.error` for a
malformed one.  This models the Go triple (tuple, ok, err). -/
def splitResourceTypeName (s : String) : Except KError (Option ResourceTuple) :=
  match splitOnChar '/' s with
  | [_] => .ok none
  | [resource, name] =>
    if resource = "" ∨ name = "" ∨ (SplitResourceArgument resource).length ≠ 1 then
      .error .mustHaveSingleResourceAndName
    else .ok (some { resource := resource, name := name })
  | _ => .error .moreThanOneSlash

/-- The Builder fields exercised by the claims.  `paths` models `b.paths`
(one opaque tag per registered path/stream visitor); the remaining fields
mirror the Go struct of the same names. -/
structure BuilderState where
  errs : List KError := []
  paths : List String := []
  selectAll : Bool := false
  labelSelector : Option String := none
  fieldSelector : Option String := none
  resourceTuples : List ResourceTuple := []
  names : List String := []
  resources : List String := []
  namespaceVal : String := ""
  defaultNamespace : Bool := false
  requireNamespace : Bool := false
  flatten : Bool := false
  requireObject : Bool := true
  continueOnError : Bool := false
  singleResourceType : Bool := false
deriving DecidableEq, Repr

/-- `Builder.ResourceNames`: parse each name; a split error stops processing
and is recorded; a combined `type/name` token becomes a tuple; a bare name is
paired with the default type, or rejected when no default type is given. -/
def ResourceNames (b : BuilderState) (resource : String) : List String → BuilderState
  | [] => b
  | name :: rest =>
    match splitResourceTypeName name with
    | .error e => { b with errs := b.errs ++ [e] }
    | .ok (some tuple) =>
        ResourceNames { b with resourceTuples := b.resourceTuples ++ [tuple] } resource rest
    | .ok none =>
        if resource = "" then
          ResourceNames { b with errs := b.errs ++ [.mustBeResourceSlashName name] } resource rest
        else
          ResourceNames
            { b with resourceTuples := b.resourceTuples ++ [{ resource := resource, name := name }] }
            resource rest

/-- The outcome of `Builder.visitorResult`, one constructor per branch of the
classification (each resolution branch is represented by its tag; the error
branches carry the error the source builds there). -/
inductive Classified where
  | aggregateErr (errs : List KError)
  | byPath
  | bySelector
  | byResourceTuple
  | byName
  | resolutionErr (e : KError)
  | noNameSpecifiedErr
  | missingResourceErr
deriving DecidableEq, Repr

/-- The bulk-types tail of `visitorResult`: resolve each type in order; the
first failure is returned, otherwise the terminal no-name error. -/
def checkResources (env : RestMapperEnv) : List String → Classified
  | [] => .noNameSpecifiedErr
  | r :: rest =>
    match mappingFor env r with
    | .error e => .resolutionErr e
    | .ok _ => checkResources env rest

/-- `Builder.visitorResult`: accumulated errors first; `selectAll` installs
the everything label selector (whose string form is empty); then paths,
selectors, tuples, names, bulk types, and finally the missing-resource
error, first match winning. -/
def visitorResultClass (env : RestMapperEnv) (b : BuilderState) : Classified :=
  if b.errs.isEmpty = false then .aggregateErr b.errs
  else
    let b := if b.selectAll then { b with labelSelector := some "" } else b
    if b.paths.isEmpty = false then .byPath
    else if b.labelSelector.isSome || b.fieldSelector.isSome then .bySelector
    else if b.resourceTuples.isEmpty = false then .byResourceTuple
    else if b.names.isEmpty = false then .byName
    else if b.resources.isEmpty = false then checkResources env b.resources
    else .missingResourceErr

/-- The resolution loop of `Builder.resourceMappings`: resolve each type
token, skipping tokens whose resolved GVK was already seen. -/
def mappingsLoop (env : RestMapperEnv) : List String → List GroupVersionKind →
    Except KError (List RESTMapping)
  | [], _ => .ok []
  | r :: rest, seen =>
    match mappingFor env r with
    | .error e => .error e
    | .ok m =>
      if m.gvk ∈ seen then mappingsLoop env rest seen
      else
        match mappingsLoop env rest (m.gvk :: seen) with
        | .error e => .error e
        | .ok ms => .ok (m :: ms)

/-- `Builder.resourceMappings`: with the single-resource-type policy set,
more than one type token is rejected up front, before any resolution. -/
def resourceMappings (env : RestMapperEnv) (b : BuilderState) :
    Except KError (List RESTMapping) :=
  if 1 < b.resources.length ∧ b.singleResourceType then .error .singleResourceTypeOnly
  else mappingsLoop env b.resources []

/-- Insertion into the `canonical` set of `resourceTupleMappings`. -/
def insertGVR (g : GroupVersionResource) (l : List GroupVersionResource) :
    List GroupVersionResource :=
  if g ∈ l then l else l ++ [g]

/-- The resolution loop of `Builder.resourceTupleMappings`: one mapping per
distinct type token, collecting the set of distinct canonical resources. -/
def tupleMappingsLoop (env : RestMapperEnv) :
    List ResourceTuple → List (String × RESTMapping) → List GroupVersionResource →
    Except KError (List (String × RESTMapping) × List GroupVersionResource)
  | [], ms, cs => .ok (ms, cs)
  | t :: rest, ms, cs =>
    if ms.any (fun p => p.1 == t.resource) then tupleMappingsLoop env rest ms cs
    else
      match mappingFor env t.resource with
      | .error e => .error e
      | .ok m => tupleMappingsLoop env rest (ms ++ [(t.resource, m)]) (insertGVR m.resource cs)

/-- `Builder.resourceTupleMappings`: resolve every tuple type, then reject
when more than one distinct canonical resource was seen under the
single-resource-type policy. -/
def resourceTupleMappings (env : RestMapperEnv) (b : BuilderState) :
    Except KError (List (String × RESTMapping)) :=
  match tupleMappingsLoop env b.resourceTuples [] [] with
  | .error e => .error e
  | .ok (ms, cs) =>
    if 1 < cs.length ∧ b.singleResourceType then .error .singleResourceTypeOnly
    else .ok ms

/-- The post-visit hooks installed by `Builder.Do`. -/
inductive Hook where
  | setNamespace (ns : String)
  | requireNamespaceHook (ns : String)
  | filterNamespace
  | retrieveLazy
deriving DecidableEq, Repr

/-- The visitor-wrapping structure built by `Builder.Do`: the classified root
visitor (`base`), the flattening wrapper, a decorator carrying an ordered
hook list, and the continue-on-error wrapper. -/
inductive Vis where
  | base
  | flattenList (v : Vis)
  | decorated (v : Vis) (hooks : List Hook)
  | continueOnError (v : Vis)
deriving DecidableEq, Repr

/-- The wrapping performed by `Builder.Do` after a successful classification,
in source order: flatten first, then the continue-on-error wrapper, and the
decorator (hooks in the order default-namespace, require-namespace,
unconditional namespace filter, lazy retrieval) applied last. -/
def doWrap (b : BuilderState) (v : Vis) : Vis :=
  let v := if b.flatten then Vis.flattenList v else v
  let helpers :=
    (if b.defaultNamespace then [Hook.setNamespace b.namespaceVal] else []) ++
    (if b.requireNamespace then [Hook.requireNamespaceHook b.namespaceVal] else []) ++
    [Hook.filterNamespace] ++
    (if b.requireObject then [Hook.retrieveLazy] else [])
  let v := if b.continueOnError then Vis.continueOnError v else v
  Vis.decorated v helpers

/-- The wrapping as the claim states it (for comparison with `doWrap`):
flatten first, then the decorator with the same hook order, and the
continue-on-error wrapper applied last (outermost). -/
def doWrapSpecClaim (b : BuilderState) (v : Vis) : Vis :=
  let v := if b.flatten then Vis.flattenList v else v
  let helpers :=
    (if b.defaultNamespace then [Hook.setNamespace b.namespaceVal] else []) ++
    (if b.requireNamespace then [Hook.requireNamespaceHook b.namespaceVal] else []) ++
    [Hook.filterNamespace] ++
    (if b.requireObject then [Hook.retrieveLazy] else [])
  let v := Vis.decorated v helpers
  if b.continueOnError then Vis.continueOnError v else v

/-- A decoded object body held by an `Info`: whether it is list-typed
(`meta.IsListType`), its reported resource version, and an opaque identity
tag. -/
structure KObject where
  isList : Bool
  resourceVersion : String
  tag : Nat
deriving DecidableEq, Repr

/-- `resource.Info`: per-object coordinates plus the optionally populated
body and the resource-version string the Result folds over. -/
structure Info where
  name : String
  namespaceVal : String
  obj : Option KObject
  resourceVersion : String
deriving DecidableEq, Repr

/-- One callback delivery of a visitor traversal: either an item, or an error
relayed through the callback for a specific source. -/
inductive VisitEvent where
  | item (i : Info)
  | fail (e : KError)
deriving DecidableEq, Repr

/-- Modelled from the spec: the composed root visitor held by a Result
(`visitor.go` is not part of the sources).  Per the spec a stream-backed
source is single-use: a second drive of a consumed visitor deterministically
yields zero items; a drive delivers the events in order, fail-fast. -/
structure StreamVisitor where
  events : List VisitEvent
  consumed : Bool
deriving DecidableEq, Repr

/-- Fail-fast collection pass of `Result.Infos`: its closure aborts on the
first relayed error and appends each item before that. -/
def collectEvents : List VisitEvent → List Info × Option KError
  | [] => ([], none)
  | .item i :: rest =>
    let r := collectEvents rest
    (i :: r.1, r.2)
  | .fail e :: _ => ([], some e)

/-- Modelled from the spec: driving the root visitor once for `Infos`.
A consumed single-use visitor yields zero items; otherwise the events are
delivered and the visitor becomes consumed. -/
def driveCollect (v : StreamVisitor) : (List Info × Option KError) × StreamVisitor :=
  if v.consumed then (([], none), v)
  else (collectEvents v.events, { v with consumed := true })

/-- Fail-fast delivery of events to a caller-supplied `VisitorFunc`; returns
the terminating error (the first non-nil callback return) and the list of
callback invocations made. -/
def visitEvents (fn : Option Info → Option KError → Option KError) :
    List VisitEvent → Option KError × List (Option Info × Option KError)
  | [] => (none, [])
  | .item i :: rest =>
    match fn (some i) none with
    | some e => (some e, [(some i, none)])
    | none =>
      let r := visitEvents fn rest
      (r.1, (some i, none) :: r.2)
  | .fail e :: rest =>
    match fn none (some e) with
    | some e2 => (some e2, [(none, some e)])
    | none =>
      let r := visitEvents fn rest
      (r.1, (none, some e) :: r.2)

/-- Modelled from the spec: driving the root visitor once for `Visit`. -/
def driveVisit (v : StreamVisitor) (fn : Option Info → Option KError → Option KError) :
    (Option KError × List (Option Info × Option KError)) × StreamVisitor :=
  if v.consumed then ((none, []), v)
  else (visitEvents fn v.events, { v with consumed := true })

/-- `utilerrors.FilterOut` for the non-aggregate errors this model produces:
an error matched by any ignore matcher is dropped. -/
def filterOut (fns : List (KError → Bool)) : Option KError → Option KError
  | none => none
  | some e => if fns.any (fun f => f e) then none else some e

/-- `resource.Result`: the stored configuration error, the assembled root
visitor, the single-item flag, the ignore matchers, and the Info list
memoized by the first full traversal. -/
structure ResultState where
  err : Option KError := none
  visitor : StreamVisitor := { events := [], consumed := false }
  singleItemImplied : Bool := false
  ignoreErrors : List (KError → Bool) := []
  info : Option (List Info) := none

/-- `Result.Visit`: a stored error short-circuits; otherwise the visitor is
driven once and the traversal error is filtered.  Returns the (filtered)
error, the callback invocations made, and the updated Result. -/
def Result.visitRun (r : ResultState) (fn : Option Info → Option KError → Option KError) :
    (Option KError × List (Option Info × Option KError)) × ResultState :=
  match r.err with
  | some e => ((some e, []), r)
  | none =>
    let d := driveVisit r.visitor fn
    ((filterOut r.ignoreErrors d.1.1, d.1.2), { r with visitor := d.2 })

/-- `Result.Infos`: a stored error short-circuits with no items; a memoized
list is returned as is; otherwise the visitor is driven once, the collected
list and the filtered error are memoized, and both are returned. -/
def Result.infosRun (r : ResultState) : (List Info × Option KError) × ResultState :=
  match r.err with
  | some e => (([], some e), r)
  | none =>
    match r.info with
    | some cached => ((cached, none), r)
    | none =>
      let d := driveCollect r.visitor
      let err := filterOut r.ignoreErrors d.1.2
      ((d.1.1, err), { r with visitor := d.2, info := some d.1.1, err := err })

/-- The `versions` string set of `Result.Object`: the resource versions of
the infos carrying an object, first occurrences kept in order (only the
cardinality and sole member of the set are consumed). -/
def insertString (s : String) (l : List String) : List String :=
  if s ∈ l then l else l ++ [s]

/-- One step of the `Result.Object` accumulation loop. -/
def versionsStep (acc : List String) (i : Info) : List String :=
  if i.obj.isSome then insertString i.resourceVersion acc else acc

/-- The version set collected by `Result.Object` over the materialized
infos. -/
def versionsOf (infos : List Info) : List String :=
  infos.foldl versionsStep []

/-- The object returned by `Result.Object`: either a bare object, or a
synthesized `v1.List` wrapper (`toV1List`) carrying all objects and a
resource version. -/
inductive ObjectOutcome where
  | bare (o : KObject)
  | v1List (items : List KObject) (resourceVersion : String)
deriving DecidableEq, Repr

/-- `toV1List`: wrap the objects in a generic list carrying `version`. -/
def toV1List (objects : List KObject) (version : String) : ObjectOutcome :=
  .v1List objects version

/-- The wrapper version chosen by `Result.Object`: the sole member of the
version set when it is a singleton, blank otherwise. -/
def soleVersion (versions : List String) : String :=
  match versions with
  | [v] => v
  | _ => ""

/-- The folding step of `Result.Object`: a single object is returned bare
when the builder implied a single item or the object is already list-typed;
otherwise all objects are wrapped via `toV1List`. -/
def foldObjects (singleItemImplied : Bool) (objects : List KObject) (version : String) :
    ObjectOutcome :=
  match objects with
  | [o] =>
    if singleItemImplied then .bare o
    else if o.isList then .bare o
    else toV1List objects version
  | _ => toV1List objects version

/-- `Result.Object`: materialize via `Infos`; an `Infos` error is returned
as is; otherwise the objects of the materialized infos are folded with
`foldObjects` under the version chosen by `soleVersion`. -/
def Result.objectRun (r : ResultState) : Except KError ObjectOutcome × ResultState :=
  let d := Result.infosRun r
  match d.1.2 with
  | some e => (.error e, d.2)
  | none =>
    let infos := d.1.1
    let objects := infos.filterMap (fun i => i.obj)
    (.ok (foldObjects d.2.singleItemImplied objects (soleVersion (versionsOf infos))), d.2)

/-- `restmapper.CategoryExpander`, opaque but comparable. -/
structure CategoryExpander where
  tag : Nat
deriving DecidableEq, Repr

/-- `cachingCategoryExpanderFunc.ToCategoryExpander` as a state transition on
the `cached` field.  `delegate` is the result the wrapped delegate would
return on this call; the middle Bool of the result records whether the
delegate was invoked. -/
def toCategoryExpander (st : Option CategoryExpander)
    (delegate : Except KError CategoryExpander) :
    (Except KError CategoryExpander × Bool) × Option CategoryExpander :=
  match st with
  | some c => ((.ok c, false), some c)
  | none =>
    match delegate with
    | .error e => ((.error e, true), none)
    | .ok v => ((.ok v, true), some v)

/-! Concrete fixtures used by witnesses and counterexamples. -/

/-- A mapping for the core `pods` resource, used by concrete environments. -/
def podMapping : RESTMapping :=
  { gvk := { group := "", version := "v1", kind := "Pod" },
    resource := { group := "", version := "v1", resource := "pods" },
    scopeNamespaced := true }

/-- An environment whose every token resolves to `podMapping`. -/
def envSame : RestMapperEnv :=
  { kindFor := fun _ => { group := "", version := "v1", kind := "Pod" },
    restMapping := fun _ _ => .ok podMapping }

/-- An environment that recognizes no resource and no kind: `KindFor` yields
the empty GVK and every `RESTMapping` lookup fails with a no-match error. -/
def envNoType : RestMapperEnv :=
  { kindFor := fun _ => { group := "", version := "", kind := "" },
    restMapping := fun gk _ => .error (.noKindMatch gk.group gk.kind) }

/-- Two bulk type tokens that resolve to one and the same type, under the
single-resource-type policy. -/
def bSame : BuilderState := { resources := ["pod", "pods"], singleResourceType := true }

/-- Two resource tuples whose types resolve to one and the same canonical
resource, under the single-resource-type policy. -/
def bTuples : BuilderState :=
  { resourceTuples := [{ resource := "pods", name := "a" },
                       { resource := "deployments", name := "b" }],
    singleResourceType := true }

/-- A builder with one path source registered. -/
def bPath : BuilderState := { paths := ["deploy.yaml"] }

/-- A builder with only continue-on-error requested. -/
def bCoE : BuilderState := { continueOnError := true }

/-- A concrete object body. -/
def o1 : KObject := { isList := false, resourceVersion := "5", tag := 1 }

/-- A concrete info carrying `o1`. -/
def i1 : Info := { name := "pod-a", namespaceVal := "ns", obj := some o1, resourceVersion := "5" }

/-- A Result holding a stored configuration error. -/
def rErr : ResultState := { err := some (.discovery 3) }

/-- A Result over an unconsumed stream yielding one item and no error. -/
def rOk : ResultState := { visitor := { events := [.item i1], consumed := false } }

/-- A Result over an unconsumed stream yielding one item and then a
traversal error. -/
def rFail : ResultState :=
  { visitor := { events := [.item i1, .fail (.visitErr 9)], consumed := false } }

/-- A single-item-implied Result over an unconsumed stream yielding one
item. -/
def rSingle : ResultState :=
  { visitor := { events := [.item i1], consumed := false }, singleItemImplied := true }

/-! Helper lemmas shared by the claim theorems. -/

/-- A stored Result error short-circuits `Visit`, `Infos` and `Object`. -/
theorem result_short_circuit (r : ResultState) (e : KError)
    (fn : Option Info → Option KError → Option KError) (h : r.err = some e) :
    Result.visitRun r fn = ((some e, []), r)
  ∧ Result.infosRun r = (([], some e), r)
  ∧ Result.objectRun r = (.error e, r) := by
  have hi : Result.infosRun r = (([], some e), r) := by
    simp [Result.infosRun, h]
  refine ⟨?_, hi, ?_⟩
  · simp [Result.visitRun, h]
  · simp [Result.objectRun, hi]

/-- `Infos` does not change the single-item flag. -/
theorem infosRun_singleItem (r : ResultState) :
    ((Result.infosRun r).2).singleItemImplied = r.singleItemImplied := by
  unfold Result.infosRun
  cases h : r.err <;> cases hi : r.info <;> simp

/-- Claim C10: the caching category-expander wrapper memoizes only a
successful delegate result: a delegate error caches nothing (the next call
invokes the delegate again), a success is cached, and once the cache is
populated every call returns the cached expander without invoking the
delegate and without ever replacing the cached value. -/
theorem caching_category_expander (st : Option CategoryExpander)
    (d : Except KError CategoryExpander) :
    (st = none → ∀ e, d = .error e → toCategoryExpander st d = ((.error e, true), none))
  ∧ (st = none → ∀ v, d = .ok v → toCategoryExpander st d = ((.ok v, true), some v))
  ∧ (∀ c, st = some c → toCategoryExpander st d = ((.ok c, false), some c)) := by
  refine ⟨?_, ?_, ?_⟩ <;> intros <;> subst_vars <;> rfl

/-- Claim C10 witness: a successful first call caches the expander, and a
later call with an erroring delegate still returns the cached value without
invoking the delegate. -/
theorem caching_category_expander_witness :
    toCategoryExpander none (.ok { tag := 7 }) = ((.ok { tag := 7 }, true), some { tag := 7 })
  ∧ toCategoryExpander (some { tag := 7 }) (.error (.discovery 0)) =
      ((.ok { tag := 7 }, false), some { tag := 7 }) :=
  ⟨(caching_category_expander none (.ok { tag := 7 })).2.1 rfl { tag := 7 } rfl,
   (caching_category_expander (some { tag := 7 }) (.error (.discovery 0))).2.2 { tag := 7 } rfl⟩

/-- Claim C4: a Result carrying a stored configuration error returns that
error immediately from `Visit`, `Infos` and `Object`: the callback is never
invoked, no items are returned, and the underlying visitor is not driven
(the Result state is unchanged). -/
theorem stored_error_short_circuits (r : ResultState) (e : KError)
    (fn : Option Info → Option KError → Option KError) (h : r.err = some e) :
    Result.visitRun r fn = ((some e, []), r)
  ∧ Result.infosRun r = (([], some e), r)
  ∧ Result.objectRun r = (.error e, r) :=
  result_short_circuit r e fn h

/-- Claim C4 witness: the short-circuit at a concrete stored error. -/
theorem stored_error_short_circuits_witness :
    Result.visitRun rErr (fun _ _ => none) = ((some (.discovery 3), []), rErr)
  ∧ Result.infosRun rErr = (([], some (.discovery 3)), rErr)
  ∧ Result.objectRun rErr = (.error (.discovery 3), rErr) :=
  stored_error_short_circuits rErr (.discovery 3) (fun _ _ => none) rfl

/-- Claim C2 counterexample: with continue-on-error requested, `Do` does not
leave the continue-on-error wrapper outermost — the decorator layer is
applied after it.  The wrapping the claim describes (`doWrapSpecClaim`)
differs from the wrapping the source performs (`doWrap`) on a builder with
only continue-on-error set. -/
theorem do_wrap_continue_on_error_not_outermost :
    doWrap bCoE Vis.base ≠ doWrapSpecClaim bCoE Vis.base := by decide

/-- Claim C2 (amended): `Do` wraps the classified root visitor with
list-flattening first (innermost), then the continue-on-error wrapper if
requested, and finally — outermost — a single decorator layer whose hooks
run in the order default-namespace (if requested), require-namespace (if
requested), the unconditional namespace filter, and lazy object retrieval
(if objects are required). -/
theorem do_wrap_layering (b : BuilderState) (v : Vis) :
    doWrap b v =
      Vis.decorated
        (if b.continueOnError then
            Vis.continueOnError (if b.flatten then Vis.flattenList v else v)
         else (if b.flatten then Vis.flattenList v else v))
        ((if b.defaultNamespace then [Hook.setNamespace b.namespaceVal] else []) ++
         (if b.requireNamespace then [Hook.requireNamespaceHook b.namespaceVal] else []) ++
         [Hook.filterNamespace] ++
         (if b.requireObject then [Hook.retrieveLazy] else [])) := rfl

/-- Claim C3: on a Result with no stored resolution error whose first
`Infos` traversal reports no error, a second `Infos` call returns the
identical materialized list without driving the visitor again: the first
call populates the memo (`info`) and leaves the Result in a state the second
call does not change, so a single-use stream source is not re-read. -/
theorem infos_idempotent_after_success (r : ResultState)
    (h : r.err = none) (hs : (Result.infosRun r).1.2 = none) :
    Result.infosRun ((Result.infosRun r).2) =
      (((Result.infosRun r).1.1, none), (Result.infosRun r).2)
  ∧ ((Result.infosRun r).2).info = some ((Result.infosRun r).1.1) := by
  cases hi : r.info with
  | some cached =>
    have h1 : Result.infosRun r = ((cached, none), r) := by
      simp [Result.infosRun, h, hi]
    rw [h1]
    exact ⟨h1, hi⟩
  | none =>
    have h1 : Result.infosRun r =
        (((driveCollect r.visitor).1.1,
          filterOut r.ignoreErrors (driveCollect r.visitor).1.2),
         { r with visitor := (driveCollect r.visitor).2,
                  info := some (driveCollect r.visitor).1.1,
                  err := filterOut r.ignoreErrors (driveCollect r.visitor).1.2 }) := by
      simp [Result.infosRun, h, hi]
    have he : filterOut r.ignoreErrors (driveCollect r.visitor).1.2 = none := by
      rw [h1] at hs
      exact hs
    rw [h1, he]
    constructor
    · simp [Result.infosRun]
    · rfl

/-- Claim C3 witness: a Result over a one-item stream returns the same list
from a second `Infos` call and leaves the state untouched. -/
theorem infos_idempotent_witness :
    Result.infosRun ((Result.infosRun rOk).2) =
      (((Result.infosRun rOk).1.1, none), (Result.infosRun rOk).2) :=
  (infos_idempotent_after_success rOk rfl (by decide)).1

/-- Claim C9: when the first `Infos` traversal reports an error, the error
(not the partial list) is what later calls see: the first call hands back
the partial list together with the error, but the error is memoized into the
Result, so every subsequent `Infos`, `Visit` or `Object` call returns the
stored error with no items. -/
theorem infos_error_memoized (r : ResultState) (e : KError)
    (fn : Option Info → Option KError → Option KError)
    (h : r.err = none) (he : (Result.infosRun r).1.2 = some e) :
    Result.infosRun ((Result.infosRun r).2) = (([], some e), (Result.infosRun r).2)
  ∧ Result.visitRun ((Result.infosRun r).2) fn = ((some e, []), (Result.infosRun r).2)
  ∧ Result.objectRun ((Result.infosRun r).2) = (.error e, (Result.infosRun r).2) := by
  cases hi : r.info with
  | some cached =>
    have h1 : Result.infosRun r = ((cached, none), r) := by
      simp [Result.infosRun, h, hi]
    rw [h1] at he
    exact absurd he (by simp)
  | none =>
    have h1 : Result.infosRun r =
        (((driveCollect r.visitor).1.1,
          filterOut r.ignoreErrors (driveCollect r.visitor).1.2),
         { r with visitor := (driveCollect r.visitor).2,
                  info := some (driveCollect r.visitor).1.1,
                  err := filterOut r.ignoreErrors (driveCollect r.visitor).1.2 }) := by
      simp [Result.infosRun, h, hi]
    have hee : filterOut r.ignoreErrors (driveCollect r.visitor).1.2 = some e := by
      rw [h1] at he
      exact he
    have herr : ((Result.infosRun r).2).err = some e := by
      rw [h1]
      exact hee
    obtain ⟨v, i, o⟩ := result_short_circuit ((Result.infosRun r).2) e fn herr
    exact ⟨i, v, o⟩

/-- Claim C9 witness: a stream yielding one item and then an error gives the
partial list plus the error on the first call, and only the error (with no
items) afterwards. -/
theorem infos_error_memoized_witness :
    Result.infosRun rFail = (([i1], some (.visitErr 9)), (Result.infosRun rFail).2)
  ∧ Result.infosRun ((Result.infosRun rFail).2) =
      (([], some (.visitErr 9)), (Result.infosRun rFail).2) := by
  have h := infos_error_memoized rFail (.visitErr 9) (fun _ _ => none) rfl (by decide)
  exact ⟨by rfl, h.1⟩

/-- When every bulk type token resolves, the bulk tail of `visitorResult`
still reaches the terminal no-name error. -/
theorem checkResources_all_ok (env : RestMapperEnv) :
    ∀ rs : List String, (∀ r ∈ rs, exceptOk (mappingFor env r) = true) →
      checkResources env rs = .noNameSpecifiedErr := by
  intro rs
  induction rs with
  | nil => intro _; rfl
  | cons r rest ih =>
    intro h
    unfold checkResources
    cases hm : mappingFor env r with
    | error e =>
      have := h r (by simp)
      rw [hm] at this
      simp [exceptOk] at this
    | ok m =>
      exact ih (fun p hp => h p (by simp [hp]))

/-- The first failing bulk type token determines the error of the bulk tail
of `visitorResult`. -/
theorem checkResources_first_error (env : RestMapperEnv) :
    ∀ (pre : List String) (r : String) (post : List String) (e : KError),
      (∀ p ∈ pre, exceptOk (mappingFor env p) = true) →
      mappingFor env r = .error e →
      checkResources env (pre ++ r :: post) = .resolutionErr e := by
  intro pre
  induction pre with
  | nil =>
    intro r post e _ hr
    simp only [List.nil_append, checkResources]
    rw [hr]
  | cons p rest ih =>
    intro r post e h hr
    have hp := h p (by simp)
    simp only [List.cons_append, checkResources]
    cases hm : mappingFor env p with
    | error e2 =>
      rw [hm] at hp
      simp [exceptOk] at hp
    | ok m =>
      exact ih r post e (fun q hq => h q (by simp [hq])) hr

/-- Claim C1: `visitorResult` classifies the configured inputs with this
precedence, first match winning: accumulated errors; path/stream sources;
a label or field selector (or select-all); resource tuples; bare names; bulk
types (each type still resolved, then the terminal no-name error); and
finally the terminal missing-resource error. -/
theorem visitor_result_precedence (env : RestMapperEnv) (b : BuilderState) :
    (b.errs ≠ [] → visitorResultClass env b = .aggregateErr b.errs)
  ∧ (b.errs = [] → b.paths ≠ [] → visitorResultClass env b = .byPath)
  ∧ (b.errs = [] → b.paths = [] →
      (b.labelSelector ≠ none ∨ b.fieldSelector ≠ none ∨ b.selectAll = true) →
      visitorResultClass env b = .bySelector)
  ∧ (b.errs = [] → b.paths = [] → b.labelSelector = none → b.fieldSelector = none →
      b.selectAll = false → b.resourceTuples ≠ [] →
      visitorResultClass env b = .byResourceTuple)
  ∧ (b.errs = [] → b.paths = [] → b.labelSelector = none → b.fieldSelector = none →
      b.selectAll = false → b.resourceTuples = [] → b.names ≠ [] →
      visitorResultClass env b = .byName)
  ∧ (b.errs = [] → b.paths = [] → b.labelSelector = none → b.fieldSelector = none →
      b.selectAll = false → b.resourceTuples = [] → b.names = [] → b.resources ≠ [] →
      ((∀ r ∈ b.resources, exceptOk (mappingFor env r) = true) →
          visitorResultClass env b = .noNameSpecifiedErr)
    ∧ (∀ (pre : List String) (r : String) (post : List String) (e : KError),
          b.resources = pre ++ r :: post →
          (∀ p ∈ pre, exceptOk (mappingFor env p) = true) →
          mappingFor env r = .error e →
          visitorResultClass env b = .resolutionErr e))
  ∧ (b.errs = [] → b.paths = [] → b.labelSelector = none → b.fieldSelector = none →
      b.selectAll = false → b.resourceTuples = [] → b.names = [] → b.resources = [] →
      visitorResultClass env b = .missingResourceErr) := by
  refine ⟨?_, ?_, ?_, ?_, ?_, ?_, ?_⟩
  · intro h
    simp [visitorResultClass, h]
  · intro he hp
    cases hsa : b.selectAll <;> simp [visitorResultClass, he, hp, hsa]
  · intro he hp hsel
    cases hsa : b.selectAll with
    | true => simp [visitorResultClass, he, hp, hsa]
    | false =>
      rcases hsel with h | h | h
      · rw [Option.ne_none_iff_isSome] at h
        simp [visitorResultClass, he, hp, hsa, h]
      · rw [Option.ne_none_iff_isSome] at h
        simp [visitorResultClass, he, hp, hsa, h]
      · rw [hsa] at h
        exact absurd h (by simp)
  · intro he hp hl hf hsa ht
    simp [visitorResultClass, he, hp, hl, hf, hsa, ht]
  · intro he hp hl hf hsa ht hn
    simp [visitorResultClass, he, hp, hl, hf, hsa, ht, hn]
  · intro he hp hl hf hsa ht hn hr
    constructor
    · intro hall
      simp [visitorResultClass, he, hp, hl, hf, hsa, ht, hn, hr]
      exact checkResources_all_ok env b.resources hall
    · intro pre r post e hsplit hpre hrerr
      simp [visitorResultClass, he, hp, hl, hf, hsa, ht, hn, hr]
      rw [hsplit]
      exact checkResources_first_error env pre r post e hpre hrerr
  · intro he hp hl hf hsa ht hn hr
    simp [visitorResultClass, he, hp, hl, hf, hsa, ht, hn, hr]

/-- Claim C1 witness: a builder with one path source classifies to the
path-based branch. -/
theorem visitor_result_precedence_witness :
    visitorResultClass envSame bPath = Classified.byPath :=
  (visitor_result_precedence envSame bPath).2.1 rfl (by decide)

/-- Claim C6 counterexample: a bare token with zero slashes is not rejected.
`splitResourceTypeName` reports it as simply not being a `type/name` token,
and `ResourceNames` with a non-empty default type accepts it as a tuple with
no validation error. -/
theorem zero_slash_token_accepted :
    splitResourceTypeName "foo" = .ok none
  ∧ (ResourceNames {} "pods" ["foo"]).errs = []
  ∧ (ResourceNames {} "pods" ["foo"]).resourceTuples =
      [{ resource := "pods", name := "foo" }] :=
  ⟨rfl, rfl, rfl⟩

/-- Claim C6 (amended): a token containing a slash is accepted only when it
has exactly one slash, both halves non-empty and the type half a single
comma-free resource, and is otherwise rejected with a validation error; a
token with two or more slashes is always rejected; a token with zero slashes
is not rejected by the parser itself — it is paired with the default type
when one is provided, and rejected (as needing RESOURCE/NAME form) only when
no default type is given. -/
theorem type_name_token_validation :
    (∀ s : String, 3 ≤ (splitOnChar '/' s).length →
        splitResourceTypeName s = .error .moreThanOneSlash)
  ∧ (∀ s res name : String, splitOnChar '/' s = [res, name] →
        (res ≠ "" → name ≠ "" → (SplitResourceArgument res).length = 1 →
            splitResourceTypeName s = .ok (some { resource := res, name := name }))
      ∧ ((res = "" ∨ name = "" ∨ (SplitResourceArgument res).length ≠ 1) →
            splitResourceTypeName s = .error .mustHaveSingleResourceAndName))
  ∧ (∀ (b : BuilderState) (s resource : String), (splitOnChar '/' s).length = 1 →
        (resource ≠ "" →
            ResourceNames b resource [s] =
              { b with resourceTuples :=
                  b.resourceTuples ++ [{ resource := resource, name := s }] })
      ∧ (resource = "" →
            ResourceNames b resource [s] =
              { b with errs := b.errs ++ [.mustBeResourceSlashName s] })) := by
  refine ⟨?_, ?_, ?_⟩
  · intro s h
    unfold splitResourceTypeName
    rcases hl : splitOnChar '/' s with _ | ⟨a, _ | ⟨b2, _ | ⟨c, rest⟩⟩⟩ <;>
      rw [hl] at h <;> simp at h
  · intro s res name hl
    unfold splitResourceTypeName
    rw [hl]
    constructor
    · intro h1 h2 h3
      simp [h1, h2, h3]
    · intro h
      simp only [if_pos h]
  · intro b s resource hl
    have hsplit : splitResourceTypeName s = .ok none := by
      unfold splitResourceTypeName
      rcases hx : splitOnChar '/' s with _ | ⟨a, _ | ⟨b2, rest⟩⟩ <;>
        rw [hx] at hl <;> simp at hl
    constructor
    · intro hres
      unfold ResourceNames
      rw [hsplit]
      simp only [if_neg hres]
      rfl
    · intro hres
      unfold ResourceNames
      rw [hsplit]
      simp only [if_pos hres]
      rfl

/-- Claim C6 witness: a two-slash token is rejected, a well-formed
`type/name` token is accepted, and a bare name with a default type becomes a
tuple. -/
theorem type_name_token_validation_witness :
    splitResourceTypeName "a/b/c" = .error .moreThanOneSlash
  ∧ splitResourceTypeName "pods/foo" = .ok (some { resource := "pods", name := "foo" })
  ∧ ResourceNames {} "pods" ["foo"] =
      { resourceTuples := [{ resource := "pods", name := "foo" }] } := by
  refine ⟨type_name_token_validation.1 "a/b/c" (by decide),
          (type_name_token_validation.2.1 "pods/foo" "pods" "foo" (by decide)).1
            (by decide) (by decide) (by decide),
          ?_⟩
  have h := (type_name_token_validation.2.2 {} "foo" "pods" (by decide)).1 (by decide)
  exact h

/-- An `Except` that is not ok is an error. -/
theorem exceptOk_false {α : Type} {x : Except KError α} (h : exceptOk x = false) :
    ∃ e2, x = .error e2 := by
  cases x with
  | ok a => simp [exceptOk] at h
  | error e2 => exact ⟨e2, rfl⟩

/-- Claim C7: when `mappingFor` falls through to its final REST-mapping
lookup (no resource-based kind was found and the fully-specified-GVK attempt
did not succeed), a no-match failure of that lookup is translated into the
user-facing no-such-resource-type error naming the unresolved type, while
any other discovery/transport failure is returned unmodified. -/
theorem mapping_for_error_classification (env : RestMapperEnv) (arg : String) (e : KError)
    (h1 : ((parseResourceArg arg).1.elim true (fun gvr => (env.kindFor gvr).isEmpty)) = true)
    (h2 : (env.kindFor { group := (parseResourceArg arg).2.group, version := "",
                         resource := (parseResourceArg arg).2.resource }).isEmpty = true)
    (h3 : ((fullySpecifiedGVKof arg).isEmpty ||
           !exceptOk (env.restMapping { group := (fullySpecifiedGVKof arg).group,
                                        kind := (fullySpecifiedGVKof arg).kind }
                      (fullySpecifiedGVKof arg).version)) = true)
    (h4 : env.restMapping (parseKindArg arg).2 "" = .error e) :
    mappingFor env arg = (if e.isNoMatch
      then .error (.noSuchResourceType (parseResourceArg arg).2.resource)
      else .error e) := by
  have hg1 : (kindForGVRStep env (parseResourceArg arg).1).isEmpty = true := by
    cases hp : (parseResourceArg arg).1 with
    | some gvr =>
      rw [hp] at h1
      unfold kindForGVRStep
      simpa using h1
    | none => rfl
  have hattempt : gvkAttempt env (fullySpecifiedGVKof arg) = none := by
    unfold gvkAttempt
    cases hfe : (fullySpecifiedGVKof arg).isEmpty with
    | true => simp
    | false =>
      rw [hfe] at h3
      simp only [Bool.false_or, Bool.not_eq_true'] at h3
      obtain ⟨e2, he2⟩ := exceptOk_false h3
      simp [he2]
  have hfin : finalizeMapping env (parseKindArg arg).2 (parseResourceArg arg).2.resource =
      (if e.isNoMatch
        then .error (.noSuchResourceType (parseResourceArg arg).2.resource)
        else .error e) := by
    unfold finalizeMapping
    rw [h4]
  unfold mappingFor
  simp only [hg1, if_true, h2, Bool.true_eq_false, if_false, hattempt, hfin]

/-- Claim C7 witness: against a catalog that knows no types, an unqualified
token fails its final lookup with a no-match error and is reported as a
missing resource type named after the token. -/
theorem mapping_for_error_classification_witness :
    mappingFor envNoType "foos" = .error (.noSuchResourceType "foos") := by
  have h := mapping_for_error_classification envNoType "foos" (.noKindMatch "" "foos")
    (by rfl) (by rfl) (by rfl) (by rfl)
  simpa using h

/-- Claim C8 counterexample: under the single-resource-type policy the bulk
path rejects two type tokens even when both resolve to one and the same
type, contradicting the claim that the error arises exactly when more than
one distinct resolved type is present. -/
theorem bulk_types_same_type_still_errors :
    mappingFor envSame "pod" = .ok podMapping
  ∧ mappingFor envSame "pods" = .ok podMapping
  ∧ resourceMappings envSame bSame = .error .singleResourceTypeOnly :=
  ⟨rfl, rfl, rfl⟩

/-- Claim C8 (amended): under the single-resource-type policy the tuple path
errors exactly when more than one distinct resolved canonical resource is
present (same-type tokens are fine), while the bulk-types path errors
whenever more than one type token is supplied, before and regardless of
resolution. -/
theorem single_resource_type_policy (env : RestMapperEnv) (b : BuilderState) :
    (b.singleResourceType = true → 1 < b.resources.length →
        resourceMappings env b = .error .singleResourceTypeOnly)
  ∧ (∀ (ms : List (String × RESTMapping)) (cs : List GroupVersionResource),
        tupleMappingsLoop env b.resourceTuples [] [] = .ok (ms, cs) →
        (b.singleResourceType = true → 1 < cs.length →
            resourceTupleMappings env b = .error .singleResourceTypeOnly)
      ∧ (b.singleResourceType = false ∨ cs.length ≤ 1 →
            resourceTupleMappings env b = .ok ms)) := by
  constructor
  · intro hs hl
    simp [resourceMappings, hs, hl]
  · intro ms cs hloop
    constructor
    · intro hs hl
      simp [resourceTupleMappings, hloop, hs, hl]
    · intro hor
      have hne : ¬(1 < cs.length ∧ b.singleResourceType = true) := by
        intro hc
        rcases hor with hs | hl
        · rw [hs] at hc
          exact absurd hc.2 (by simp)
        · exact absurd hc.1 (Nat.not_lt.mpr hl)
      simp [resourceTupleMappings, hloop, hne]

/-- Membership in the set-insertion of the version loop. -/
theorem mem_insertString (s x : String) (l : List String) :
    x ∈ insertString s l ↔ x ∈ l ∨ x = s := by
  unfold insertString
  by_cases h : s ∈ l
  · simp only [if_pos h]
    constructor
    · exact Or.inl
    · rintro (hx | rfl)
      · exact hx
      · exact h
  · simp [if_neg h, List.mem_append]

/-- Membership in the version set collected over the infos. -/
theorem mem_versions_fold (infos : List Info) :
    ∀ (acc : List String) (x : String),
      x ∈ List.foldl versionsStep acc infos ↔
        x ∈ acc ∨ ∃ i, i ∈ infos ∧ i.obj.isSome = true ∧ i.resourceVersion = x := by
  induction infos with
  | nil =>
    intro acc x
    simp
  | cons i rest ih =>
    intro acc x
    rw [List.foldl_cons, ih]
    simp only [List.mem_cons]
    unfold versionsStep
    by_cases hobj : i.obj.isSome = true
    · rw [if_pos hobj, mem_insertString]
      constructor
      · rintro ((hacc | rfl) | ⟨j, hj, hoj, hvj⟩)
        · exact Or.inl hacc
        · exact Or.inr ⟨i, Or.inl rfl, hobj, rfl⟩
        · exact Or.inr ⟨j, Or.inr hj, hoj, hvj⟩
      · rintro (hacc | ⟨j, hj | hj, hoj, hvj⟩)
        · exact Or.inl (Or.inl hacc)
        · subst hj
          exact Or.inl (Or.inr hvj.symm)
        · exact Or.inr ⟨j, hj, hoj, hvj⟩
    · rw [if_neg hobj]
      constructor
      · rintro (hacc | ⟨j, hj, hoj, hvj⟩)
        · exact Or.inl hacc
        · exact Or.inr ⟨j, Or.inr hj, hoj, hvj⟩
      · rintro (hacc | ⟨j, hj | hj, hoj, hvj⟩)
        · exact Or.inl hacc
        · subst hj
          exact absurd hoj hobj
        · exact Or.inr ⟨j, hj, hoj, hvj⟩

/-- Set-insertion preserves distinctness. -/
theorem nodup_insertString (s : String) (l : List String) (h : l.Nodup) :
    (insertString s l).Nodup := by
  unfold insertString
  by_cases hs : s ∈ l
  · rwa [if_pos hs]
  · rw [if_neg hs, List.nodup_append]
    refine ⟨h, List.nodup_singleton s, ?_⟩
    intro a ha hmem
    rw [List.mem_singleton] at hmem
    subst hmem
    exact hs ha

/-- The collected version set is distinct. -/
theorem nodup_versions_fold (infos : List Info) :
    ∀ acc : List String, acc.Nodup → (List.foldl versionsStep acc infos).Nodup := by
  induction infos with
  | nil =>
    intro acc h
    simpa using h
  | cons i rest ih =>
    intro acc h
    rw [List.foldl_cons]
    apply ih
    unfold versionsStep
    by_cases hobj : i.obj.isSome = true
    · rw [if_pos hobj]
      exact nodup_insertString _ _ h
    · rwa [if_neg hobj]

/-- A distinct list whose members all equal `v`, with `v` among them, is
exactly `[v]`. -/
theorem nodup_mem_singleton {l : List String} {v : String} (hn : l.Nodup)
    (hv : v ∈ l) (hall : ∀ x ∈ l, x = v) : l = [v] := by
  cases l with
  | nil => cases hv
  | cons a t =>
    have ha : a = v := hall a (by simp)
    subst ha
    cases t with
    | nil => rfl
    | cons b t2 =>
      have hb : b = a := hall b (by simp)
      subst hb
      rw [List.nodup_cons] at hn
      exact absurd (by simp) hn.1

/-- The version set is the singleton `[v]` iff some info carries an object
and every object-carrying info reports version `v`. -/
theorem versionsOf_eq_singleton (infos : List Info) (v : String) :
    versionsOf infos = [v] ↔
      (∃ i, i ∈ infos ∧ i.obj.isSome = true ∧ i.resourceVersion = v) ∧
      (∀ i ∈ infos, i.obj.isSome = true → i.resourceVersion = v) := by
  constructor
  · intro h
    constructor
    · have hv : v ∈ versionsOf infos := by
        rw [h]
        simp
      rw [versionsOf, mem_versions_fold] at hv
      rcases hv with hv | hv
      · cases hv
      · exact hv
    · intro i hi ho
      have hx : i.resourceVersion ∈ versionsOf infos := by
        rw [versionsOf, mem_versions_fold]
        exact Or.inr ⟨i, hi, ho, rfl⟩
      rw [h] at hx
      simpa using hx
  · rintro ⟨⟨i0, hi0, ho0, hv0⟩, hall⟩
    apply nodup_mem_singleton
    · exact nodup_versions_fold infos [] List.nodup_nil
    · rw [versionsOf, mem_versions_fold]
      exact Or.inr ⟨i0, hi0, ho0, hv0⟩
    · intro x hx
      rw [versionsOf, mem_versions_fold] at hx
      rcases hx with hx | ⟨j, hj, hoj, hvj⟩
      · cases hx
      · rw [← hvj]
        exact hall j hj hoj

/-- When the object-carrying infos exist and all report version `v`, the
wrapper version is `v`. -/
theorem soleVersion_common (infos : List Info) (v : String)
    (hne : (infos.filter (fun i => i.obj.isSome)).map (fun i => i.resourceVersion) ≠ [])
    (hall : ∀ x ∈ (infos.filter (fun i => i.obj.isSome)).map (fun i => i.resourceVersion),
        x = v) :
    soleVersion (versionsOf infos) = v := by
  have hchar : versionsOf infos = [v] := by
    rw [versionsOf_eq_singleton]
    constructor
    · obtain ⟨x, hx⟩ := List.exists_mem_of_ne_nil _ hne
      have hxv := hall x hx
      subst hxv
      simp only [List.mem_map, List.mem_filter] at hx
      obtain ⟨i, ⟨hi, ho⟩, hrv⟩ := hx
      exact ⟨i, hi, ho, hrv⟩
    · intro i hi ho
      apply hall
      simp only [List.mem_map, List.mem_filter]
      exact ⟨i, ⟨hi, ho⟩, rfl⟩
  rw [hchar]
  rfl

/-- When no common version exists across the object-carrying infos (or there
are none), the wrapper version is blank. -/
theorem soleVersion_blank (infos : List Info)
    (hno : ∀ v : String, ¬(
        (infos.filter (fun i => i.obj.isSome)).map (fun i => i.resourceVersion) ≠ [] ∧
        ∀ x ∈ (infos.filter (fun i => i.obj.isSome)).map (fun i => i.resourceVersion),
          x = v)) :
    soleVersion (versionsOf infos) = "" := by
  cases hm : versionsOf infos with
  | nil => rfl
  | cons w t =>
    cases t with
    | nil =>
      exfalso
      obtain ⟨⟨i0, hi0, ho0, hv0⟩, hall⟩ := (versionsOf_eq_singleton infos w).mp hm
      apply hno w
      constructor
      · intro hemp
        have hmem : i0.resourceVersion ∈
            (infos.filter (fun i => i.obj.isSome)).map (fun i => i.resourceVersion) := by
          simp only [List.mem_map, List.mem_filter]
          exact ⟨i0, ⟨hi0, ho0⟩, rfl⟩
        rw [hemp] at hmem
        cases hmem
      · intro x hx
        simp only [List.mem_map, List.mem_filter] at hx
        obtain ⟨j, ⟨hj, hoj⟩, hrvj⟩ := hx
        rw [← hrvj]
        exact hall j hj hoj
    | cons w2 t2 => rfl

/-- Claim C5: on a successful `Infos`, `Object` returns the single resulting
object bare when the builder implied a single item; returns a single
list-typed object unwrapped; and otherwise synthesizes a generic list
wrapper over all resulting objects whose resource version is the common
version when every object-carrying info reports an identical version, and
blank otherwise. -/
theorem object_single_item_folding (r : ResultState)
    (hs : (Result.infosRun r).1.2 = none) :
    (∀ o : KObject,
        ((Result.infosRun r).1.1).filterMap (fun i => i.obj) = [o] →
        r.singleItemImplied = true →
        Result.objectRun r = (.ok (.bare o), (Result.infosRun r).2))
  ∧ (∀ o : KObject,
        ((Result.infosRun r).1.1).filterMap (fun i => i.obj) = [o] →
        o.isList = true →
        Result.objectRun r = (.ok (.bare o), (Result.infosRun r).2))
  ∧ ((∀ o : KObject,
        ((Result.infosRun r).1.1).filterMap (fun i => i.obj) = [o] →
        r.singleItemImplied = false ∧ o.isList = false) →
      ∃ ver : String,
        Result.objectRun r =
          (.ok (toV1List (((Result.infosRun r).1.1).filterMap (fun i => i.obj)) ver),
           (Result.infosRun r).2)
      ∧ (∀ v : String,
          (((Result.infosRun r).1.1).filter (fun i => i.obj.isSome)).map
              (fun i => i.resourceVersion) ≠ [] →
          (∀ x ∈ (((Result.infosRun r).1.1).filter (fun i => i.obj.isSome)).map
              (fun i => i.resourceVersion), x = v) →
          ver = v)
      ∧ ((∀ v : String, ¬(
          (((Result.infosRun r).1.1).filter (fun i => i.obj.isSome)).map
              (fun i => i.resourceVersion) ≠ [] ∧
          ∀ x ∈ (((Result.infosRun r).1.1).filter (fun i => i.obj.isSome)).map
              (fun i => i.resourceVersion), x = v)) →
          ver = "")) := by
  have hrun : Result.objectRun r =
      (.ok (foldObjects ((Result.infosRun r).2).singleItemImplied
              (((Result.infosRun r).1.1).filterMap (fun i => i.obj))
              (soleVersion (versionsOf ((Result.infosRun r).1.1)))),
       (Result.infosRun r).2) := by
    simp only [Result.objectRun, hs]
  have hsi := infosRun_singleItem r
  refine ⟨?_, ?_, ?_⟩
  · intro o ho hsii
    rw [hrun, ho, hsi, hsii]
    simp [foldObjects]
  · intro o ho holist
    rw [hrun, ho]
    cases hb : ((Result.infosRun r).2).singleItemImplied <;>
      simp [foldObjects, holist]
  · intro hno
    refine ⟨soleVersion (versionsOf ((Result.infosRun r).1.1)), ?_, ?_, ?_⟩
    · rw [hrun]
      cases hobj : ((Result.infosRun r).1.1).filterMap (fun i => i.obj) with
      | nil => rfl
      | cons o t =>
        cases t with
        | nil =>
          obtain ⟨hsif, holf⟩ := hno o hobj
          rw [hsi, hsif]
          simp [foldObjects, holf]
        | cons o2 t2 => rfl
    · intro v hne hall
      exact soleVersion_common _ v hne hall
    · intro hnone
      exact soleVersion_blank _ hnone

/-- Claim C5 witness: a single-item-implied Result over one object-bearing
info returns that object bare from `Object`. -/
theorem object_single_item_folding_witness :
    Result.objectRun rSingle = (.ok (.bare o1), (Result.infosRun rSingle).2) :=
  (object_single_item_folding rSingle (by rfl)).1 o1 (by rfl) rfl

/-- Claim C8 witness: two bulk tokens trip the policy error up front, while
two tuples resolving to the same canonical resource pass the tuple path. -/
theorem single_resource_type_policy_witness :
    resourceMappings envSame bSame = .error .singleResourceTypeOnly
  ∧ resourceTupleMappings envSame bTuples =
      .ok [("pods", podMapping), ("deployments", podMapping)] := by
  refine ⟨(single_resource_type_policy envSame bSame).1 rfl (by decide), ?_⟩
  exact ((single_resource_type_policy envSame bTuples).2
      [("pods", podMapping), ("deployments", podMapping)]
      [podMapping.resource] (by rfl)).2 (Or.inr (by decide))

end KubeResource
